import Mathlib

/-!
Shallow embedding of the bounded pagination/aggregation loops of the
pydanticai-tools repository (Brave web search, Google Calendar list
calendars / list events, YouTube channel search, Exa answer/search, and the
scraping helper), together with theorems settling the frozen claims about
them.

The external paged API is modelled as a function `Nat → Page` giving the
response to the i-th page fetch; since every loop is deterministic, the i-th
request is a function of the previous responses, so quantifying over all
such sequences covers every possible source behaviour.  The `while` loops
are embedded as fuel-indexed recursions returning `none` when the fuel runs
out; each run also returns the trace of page-size parameters sent to the
source, one entry per issued fetch, in order.
-/

set_option maxRecDepth 10000

/-- Python truthiness of an optional string (as in `if not next_page_token`):
`None` and the empty string are falsy, every other string is truthy. -/
def truthy : Option String → Bool
  | none => false
  | some s => s != ""

/-- Python list slicing `l[:n]`: nonnegative `n` keeps the first `n` items,
negative `n` drops `-n` items from the end (clamped at the empty list). -/
def pyTake (n : Int) (l : List α) : List α :=
  if 0 ≤ n then l.take n.toNat else l.take ((l.length : Int) + n).toNat

namespace Calendar

/-- One page of a Google Calendar API response as consumed by
`GoogleCalendarTool.list_calendars` / `list_calendar_events`:
`items` is `response.get('items', [])`, `nextPageToken` is
`response.get('nextPageToken')`. -/
structure CalPage (α : Type) where
  items : List α
  nextPageToken : Option String
deriving DecidableEq

/-- The `while True` loop of `GoogleCalendarTool.list_calendars`
(calendar_tools.py lines 126-156).  Each iteration requests
`maxResults = min(250, limit_total_results - results_count)`, fetches a
page, extends the accumulator, stops when `results_count >= limit` or when
the page token is falsy, and otherwise continues with the next page.  The
returned list of `Int`s is the trace of `maxResults` values sent to the
API, one per fetch.  There is no truncation of the accumulated list. -/
def listCalendarsGo (src : Nat → CalPage α) (limit : Int) :
    Nat → List α → Nat → Option (List α × List Int)
  | 0, _, _ => none
  | fuel+1, acc, idx =>
    let req : Int := min 250 (limit - (acc.length : Int))
    let page := src idx
    let acc2 := acc ++ page.items
    if limit ≤ (acc2.length : Int) then
      some (acc2, [req])
    else if truthy page.nextPageToken then
      match listCalendarsGo src limit fuel acc2 (idx+1) with
      | none => none
      | some (res, reqs) => some (res, req :: reqs)
    else
      some (acc2, [req])

/-- `GoogleCalendarTool.list_calendars`: runs the pagination loop starting
from an empty accumulator and then cleans every accumulated raw calendar
through the per-item mapper (the dict comprehension of lines 159-165). -/
def list_calendars (src : Nat → CalPage α) (mapper : α → β) (limit : Int)
    (fuel : Nat) : Option (List β × List Int) :=
  match listCalendarsGo src limit fuel [] 0 with
  | none => none
  | some (res, reqs) => some (res.map mapper, reqs)

/-- The `while True` loop of `GoogleCalendarTool.list_calendar_events`
(calendar_tools.py lines 209-247).  Identical to `listCalendarsGo` except
that on reaching the limit the accumulated list is truncated by the Python
slice `all_events[:limit_total_results]`. -/
def listEventsGo (src : Nat → CalPage α) (limit : Int) :
    Nat → List α → Nat → Option (List α × List Int)
  | 0, _, _ => none
  | fuel+1, acc, idx =>
    let req : Int := min 250 (limit - (acc.length : Int))
    let page := src idx
    let acc2 := acc ++ page.items
    if limit ≤ (acc2.length : Int) then
      some (pyTake limit acc2, [req])
    else if truthy page.nextPageToken then
      match listEventsGo src limit fuel acc2 (idx+1) with
      | none => none
      | some (res, reqs) => some (res, req :: reqs)
    else
      some (acc2, [req])

/-- `GoogleCalendarTool.list_calendar_events`: the events are returned as
raw dicts (full passthrough, no per-item cleaning step in the source). -/
def list_calendar_events (src : Nat → CalPage α) (limit : Int) (fuel : Nat) :
    Option (List α × List Int) :=
  listEventsGo src limit fuel [] 0

end Calendar

namespace YouTube

/-- One page of a YouTube Data API search/list response as consumed by the
`YouTubeTool` loops: `items` is `response['items']`, `totalResults` is
`response['pageInfo']['totalResults']`, `nextPageToken` is
`response.get('nextPageToken')`. -/
structure YtPage (α : Type) where
  items : List α
  totalResults : Int
  nextPageToken : Option String
deriving DecidableEq

/-- The `while len(lst) < max_results` loop shared by
`YouTubeTool.search_channel` and its siblings (`search_playlist`,
`search_videos`, `get_video_info`, `get_channel_videos`), youtube_tools.py
lines 147-184 for `search_channel`.  Each iteration requests
`maxResults = min(50, max_results - len(lst))`, maps every raw item of the
page into the accumulator, overwrites `total_results` with this page's
`pageInfo.totalResults`, and stops when the page token is falsy.  The
trace of requested `maxResults` values is returned alongside. -/
def searchChannelGo (src : Nat → YtPage α) (mapper : α → β) (maxResults : Int) :
    Nat → List β → Int → Nat → Option (List β × Int × List Int)
  | 0, _, _, _ => none
  | fuel+1, lst, total, idx =>
    if (lst.length : Int) < maxResults then
      let req : Int := min 50 (maxResults - (lst.length : Int))
      let page := src idx
      let lst2 := lst ++ page.items.map mapper
      let total2 := page.totalResults
      if truthy page.nextPageToken then
        match searchChannelGo src mapper maxResults fuel lst2 total2 (idx+1) with
        | none => none
        | some (res, t, reqs) => some (res, t, req :: reqs)
      else
        some (lst2, total2, [req])
    else
      some (lst, total, [])

/-- `YouTubeTool.search_channel`: starts from `lst = []`,
`total_results = 0`, no page token. -/
def search_channel (src : Nat → YtPage α) (mapper : α → β) (maxResults : Int)
    (fuel : Nat) : Option (List β × Int × List Int) :=
  searchChannelGo src mapper maxResults fuel [] 0 0

end YouTube

namespace Brave

/-- The `web` object of a Brave search JSON response: `results` is present
exactly when the JSON has a `results` key under `web`. -/
structure BraveWeb (α : Type) where
  results : Option (List α)
deriving DecidableEq

/-- One Brave search JSON response: `web` is present exactly when the JSON
has a `web` key. -/
structure BravePage (α : Type) where
  web : Option (BraveWeb α)
deriving DecidableEq

/-- The raw web results actually consumed from a response by the loop
(empty when either key is missing, since the loop then breaks). -/
def BravePage.itemsD (p : BravePage α) : List α :=
  match p.web with
  | some w => w.results.getD []
  | none => []

/-- Whether the response passes the loop's
`'web' in batch_results and 'results' in batch_results['web']` check. -/
def BravePage.full (p : BravePage α) : Bool :=
  match p.web with
  | some w => w.results.isSome
  | none => false

/-- The outcome of `BraveSearchTool.web_search` after the loop:
a normal `WebResults` value, or the `UnboundLocalError` raised at line 154
when the loop body never ran (`combined_results` never assigned), or the
`KeyError` raised at line 159 when the first response has no `web` key. -/
inductive BraveOutcome (β : Type) where
  | ok (results : List β)
  | unboundLocalError
  | keyError
deriving DecidableEq

/-- The `while remaining_results > 0` loop of `BraveSearchTool.web_search`
(brave_tool.py lines 91-151).  State: accumulated raw results, current
offset, remaining requested results, the captured `combined_results`
envelope (`none` models the variable being unbound).  Each iteration
requests `count = min(min(count, 20), remaining)` at the current offset
(the returned trace records these `(count, offset)` pairs, one per fetch),
captures the envelope when `current_offset == offset`, extends the
accumulator when the response has `web.results`, breaks on a short page,
on a response without `web.results`, or once the offset reaches 9. -/
def braveGo (src : Nat → BravePage α) (apiCount offset0 : Int) :
    Nat → List α → Int → Int → Option (BravePage α) → Nat →
    Option (List α × Int × Option (BravePage α) × List (Int × Int))
  | 0, _, _, _, _, _ => none
  | fuel+1, all, curOff, remaining, comb, idx =>
    if 0 < remaining then
      let batch := min apiCount remaining
      let resp := src idx
      let comb2 := if curOff == offset0 then some resp else comb
      match resp.web with
      | some w =>
        match w.results with
        | some ws =>
          let all2 := all ++ ws
          let remaining2 := remaining - (ws.length : Int)
          let curOff2 := curOff + (ws.length : Int)
          if (ws.length : Int) < batch then
            some (all2, curOff2, comb2, [(batch, curOff)])
          else if 9 ≤ curOff2 then
            some (all2, curOff2, comb2, [(batch, curOff)])
          else
            match braveGo src apiCount offset0 fuel all2 curOff2 remaining2 comb2 (idx+1) with
            | none => none
            | some (a, o, c, reqs) => some (a, o, c, (batch, curOff) :: reqs)
        | none => some (all, curOff, comb2, [(batch, curOff)])
      | none => some (all, curOff, comb2, [(batch, curOff)])
    else
      some (all, curOff, comb, [])

/-- `BraveSearchTool.web_search`: runs the loop with
`api_count = min(count, 20)`, `current_offset = offset`,
`remaining_results = total_results`, then replays lines 153-171: reading
`combined_results` raises `UnboundLocalError` when it was never assigned;
indexing `combined_results['web']` raises `KeyError` when the envelope has
no `web` key; otherwise the accumulated results are truncated by the
Python slice `all_results[:total_results]` and mapped into `WebResult`
records.  The middle component is the captured envelope. -/
def web_search (src : Nat → BravePage α) (mapper : α → β)
    (count offset totalResults : Int) (fuel : Nat) :
    Option (BraveOutcome β × Option (BravePage α) × List (Int × Int)) :=
  match braveGo src (min count 20) offset fuel [] offset totalResults none 0 with
  | none => none
  | some (all, _, comb, reqs) =>
    match comb with
    | none => some (.unboundLocalError, none, reqs)
    | some c =>
      match c.web with
      | none => some (.keyError, some c, reqs)
      | some _ => some (.ok ((pyTake totalResults all).map mapper), some c, reqs)

end Brave

namespace Exa

/-- A citation object of an Exa answer response.  Every field can be
absent; the pydantic model `AnswerResult_` requires `url` to be a string,
so constructing it raises exactly when `url` is missing. -/
structure Citation where
  url : Option String
  title : Option String
  published_date : Option String
  author : Option String
  text : Option String
deriving DecidableEq

/-- The `AnswerResult_` pydantic model of exa_tools.py: `url` mandatory,
the remaining fields optional. -/
structure AnswerRecord where
  url : String
  title : Option String
  published_date : Option String
  author : Option String
  text : Option String
deriving DecidableEq

/-- A successful `exa.answer` API response. -/
structure AnswerResponse where
  answer : String
  citations : List Citation

/-- The `AnswerResults` pydantic model returned by `ExaTool.get_answer`. -/
structure AnswerResults where
  answer : String
  citations : List AnswerRecord
deriving DecidableEq

/-- The per-citation conversion inside the try/except of
`ExaTool.get_answer` (exa_tools.py lines 253-269): building
`AnswerResult_` fails (pydantic validation error, caught and skipped) iff
the citation has no `url`. -/
def convertCitation (c : Citation) : Option AnswerRecord :=
  match c.url with
  | none => none
  | some u => some ⟨u, c.title, c.published_date, c.author, c.text⟩

/-- `ExaTool.get_answer`: an API failure is caught by the outer try/except
and returned as an error string; on success every citation is converted
under the skip-and-continue policy (the inner try/except with `continue`),
so failing citations are dropped and no exception propagates. -/
def get_answer (resp : Except String AnswerResponse) :
    Except String AnswerResults :=
  match resp with
  | .error e => .error ("Error: " ++ e)
  | .ok r => .ok ⟨r.answer, r.citations.filterMap convertCitation⟩

/-- A successful `exa.search` response: the single API call of
`ExaTool.search`, carrying `cost_dollars.total` and the result list. -/
structure SearchResponse (α γ : Type) where
  costDollarsTotal : γ
  results : List α

/-- `ExaTool.search` (exa_tools.py lines 109-143): one API call, cost
taken from that single response, results mapped in order. -/
def search (resp : Except String (SearchResponse α γ)) (mapper : α → β) :
    Except String (γ × List β) :=
  match resp with
  | .error e => .error ("Error: " ++ e)
  | .ok r => .ok (r.costDollarsTotal, r.results.map mapper)

end Exa

namespace Scraping

/-- The possible outcomes of the body of the `try` block in
`get_page_content` (scraping_tools.py lines 19-28): the GET succeeded and
produced `response.text`, or it raised `httpx.HTTPStatusError` (from
`raise_for_status`), or `httpx.RequestError`, or some other exception
(e.g. while parsing) — each caught by the corresponding `except` clause. -/
inductive FetchOutcome where
  | success (text : String)
  | httpStatusError (code : Nat) (body : String)
  | requestError (msg : String)
  | otherError (msg : String)
deriving DecidableEq

/-- `get_page_content`, parameterised by the HTML text extraction
`soup.text` performed by BeautifulSoup (an extraction failure is an
exception inside the `try` block, i.e. an `otherError` outcome): on
success the extracted text has every newline replaced by a space, and on
every error branch the empty string is returned. -/
def get_page_content (extract : String → String) (o : FetchOutcome) : String :=
  match o with
  | .success t => (extract t).replace "\n" " "
  | .httpStatusError _ _ => ""
  | .requestError _ => ""
  | .otherError _ => ""

end Scraping

/-! ## Concrete sources used by counterexamples and witnesses -/

/-- A calendar source whose every page is empty with no token. -/
def calSrcEmpty : Nat → Calendar.CalPage Nat := fun _ => ⟨[], none⟩

/-- A calendar source that always returns an empty page together with a
continuation token. -/
def zeroTokCal (α : Type) : Nat → Calendar.CalPage α := fun _ => ⟨[], some "token"⟩

/-- A YouTube source that always returns an empty page together with a
continuation token. -/
def zeroTokYt (α : Type) : Nat → YouTube.YtPage α := fun _ => ⟨[], 0, some "token"⟩

/-- A Brave source whose every response carries an empty `web.results`. -/
def zeroItemsBrave (α : Type) : Nat → Brave.BravePage α := fun _ => ⟨some ⟨some []⟩⟩

/-! ## Page-trace machinery for the calendar loops -/

namespace Calendar

/-- Concatenation of the raw items of pages `start, ..., start+k-1`. -/
def concatFrom (src : Nat → CalPage α) (start : Nat) : Nat → List α
  | 0 => []
  | k+1 => ((src start).items) ++ concatFrom src (start+1) k

/-- Number of raw items on pages `start, ..., start+k-1`. -/
def servedFrom (src : Nat → CalPage α) (start k : Nat) : Nat :=
  (concatFrom src start k).length

/-- A source conforms to the loop's requests when every page carries at
most the number of items requested for it (`maxResults` at that point). -/
def conforming (src : Nat → CalPage α) (limit : Int) : Prop :=
  ∀ i, (((src i).items).length : Int)
    ≤ min 250 (limit - (servedFrom src 0 i : Int))

end Calendar

/-! ## Page-trace machinery for the YouTube loop -/

namespace YouTube

/-- Concatenation of the raw items of pages `start, ..., start+k-1`. -/
def concatFrom (src : Nat → YtPage α) (start : Nat) : Nat → List α
  | 0 => []
  | k+1 => ((src start).items) ++ concatFrom src (start+1) k

/-- Number of raw items on pages `start, ..., start+k-1`. -/
def servedFrom (src : Nat → YtPage α) (start k : Nat) : Nat :=
  (concatFrom src start k).length

/-- A source conforms to the loop's requests when every page carries at
most the number of items requested for it (`maxResults` at that point). -/
def conforming (src : Nat → YtPage α) (maxResults : Int) : Prop :=
  ∀ i, (((src i).items).length : Int)
    ≤ min 50 (maxResults - (servedFrom src 0 i : Int))

end YouTube

/-! ## Page-trace machinery for the Brave loop -/

namespace Brave

/-- Concatenation of the consumed web results of pages
`start, ..., start+k-1`. -/
def concatFrom (src : Nat → BravePage α) (start : Nat) : Nat → List α
  | 0 => []
  | k+1 => (src start).itemsD ++ concatFrom src (start+1) k

/-- Number of consumed web results on pages `start, ..., start+k-1`. -/
def servedFrom (src : Nat → BravePage α) (start k : Nat) : Nat :=
  (concatFrom src start k).length

end Brave

/-- A calendar source whose every page holds the two items 7 and 8. -/
def calSrcTwo : Nat → Calendar.CalPage Nat := fun _ => ⟨[7, 8], none⟩

/-- A YouTube source with a one-item page and provider total 42. -/
def ytSrcOne : Nat → YouTube.YtPage Nat := fun _ => ⟨[5], 42, none⟩

/-- A concrete answer response with ten citations, the third lacking its
`url` field. -/
def c9resp : Exa.AnswerResponse :=
  ⟨"ans",
    [⟨some "u1", none, none, none, none⟩, ⟨some "u2", none, none, none, none⟩,
     ⟨none, none, none, none, none⟩, ⟨some "u4", none, none, none, none⟩,
     ⟨some "u5", none, none, none, none⟩, ⟨some "u6", none, none, none, none⟩,
     ⟨some "u7", none, none, none, none⟩, ⟨some "u8", none, none, none, none⟩,
     ⟨some "u9", none, none, none, none⟩, ⟨some "u10", none, none, none, none⟩]⟩

/-! ## More concrete sources for counterexamples and witnesses -/

/-- A YouTube source whose every page is empty with no token. -/
def ytSrcEmpty : Nat → YouTube.YtPage Nat := fun _ => ⟨[], 0, none⟩

/-- A calendar source whose first page is short (3 items) but still
carries a continuation token, followed by a one-item page. -/
def calSrcShort : Nat → Calendar.CalPage Nat := fun i =>
  if i = 0 then ⟨[1, 2, 3], some "t"⟩ else ⟨[4], none⟩

/-- A Brave source whose every response holds the two results 1, 2. -/
def braveSrcPages : Nat → Brave.BravePage Nat := fun _ => ⟨some ⟨some [1, 2]⟩⟩

/-- A YouTube source reporting provider total 100 on page 0 and 200 on
every later page. -/
def ytSrcTotals : Nat → YouTube.YtPage Nat := fun i =>
  if i = 0 then ⟨[1], 100, some "t"⟩ else ⟨[2], 200, none⟩

/-! ## C1 — behaviour at target_count = 0 -/

/-- C1 (counterexample): the claim says that with `target_count = 0` every
instantiation returns an empty result and issues no fetch.  But
`GoogleCalendarTool.list_calendars` with `limit_total_results = 0` issues
exactly one API call (with `maxResults = 0`): the run below has a
one-element request trace `[0]` instead of the empty trace. -/
theorem c1_counterexample :
    Calendar.list_calendars calSrcEmpty (fun a => a) 0 1 = some ([], [0]) := by
  decide

/-- C1 (amended): with `target_count = 0`, the YouTube loops return an
empty result without fetching; the calendar loops issue exactly one fetch
with `maxResults = 0` (`list_calendars` returning whatever that page held,
`list_calendar_events` truncating to empty); Brave issues no fetch but
raises `UnboundLocalError` instead of returning a result. -/
theorem c1_amended (α β : Type) (srcY : Nat → YouTube.YtPage α) (mY : α → β)
    (srcC : Nat → Calendar.CalPage α) (mC : α → β)
    (srcE : Nat → Calendar.CalPage α)
    (srcB : Nat → Brave.BravePage α) (mB : α → β)
    (count offset : Int) (fuel : Nat) :
    YouTube.search_channel srcY mY 0 (fuel+1) = some ([], 0, [])
    ∧ Calendar.list_calendars srcC mC 0 (fuel+1)
        = some (((srcC 0).items).map mC, [0])
    ∧ Calendar.list_calendar_events srcE 0 (fuel+1) = some ([], [0])
    ∧ Brave.web_search srcB mB count offset 0 (fuel+1)
        = some (.unboundLocalError, none, []) := by
  refine ⟨?_, ?_, ?_, ?_⟩
  · simp [YouTube.search_channel, YouTube.searchChannelGo]
  · simp [Calendar.list_calendars, Calendar.listCalendarsGo]
  · simp [Calendar.list_calendar_events, Calendar.listEventsGo, pyTake]
  · simp [Brave.web_search, Brave.braveGo]

/-! ## C4 — zero-item pages with a continuation token -/

/-- C4 (counterexample): the claim says every instantiation treats a
zero-item page as exhaustion and terminates.  But
`GoogleCalendarTool.list_calendars` on a source that always returns an
empty page with a continuation token makes no progress and never exits:
here it exhausts 50 loop iterations without terminating. -/
theorem c4_counterexample :
    Calendar.list_calendars (zeroTokCal Nat) (fun a => a) 10 50 = none := by
  decide

/-- On the always-empty-page-with-token source, the `list_calendars` loop
makes no progress and exhausts any fuel. -/
theorem listCalendarsGo_zeroTok (α : Type) (limit : Int) (hl : 0 < limit) :
    ∀ fuel idx, Calendar.listCalendarsGo (zeroTokCal α) limit fuel [] idx = none := by
  intro fuel
  induction fuel with
  | zero => intro idx; rfl
  | succ n ih =>
    intro idx
    simp [Calendar.listCalendarsGo, zeroTokCal, truthy, ih,
      show ¬ (limit ≤ (0:Int)) by omega]

/-- On the always-empty-page-with-token source, the `list_calendar_events`
loop makes no progress and exhausts any fuel. -/
theorem listEventsGo_zeroTok (α : Type) (limit : Int) (hl : 0 < limit) :
    ∀ fuel idx, Calendar.listEventsGo (zeroTokCal α) limit fuel [] idx = none := by
  intro fuel
  induction fuel with
  | zero => intro idx; rfl
  | succ n ih =>
    intro idx
    simp [Calendar.listEventsGo, zeroTokCal, truthy, ih,
      show ¬ (limit ≤ (0:Int)) by omega]

/-- On the always-empty-page-with-token source, the YouTube search loop
makes no progress and exhausts any fuel. -/
theorem searchChannelGo_zeroTok (α β : Type) (mY : α → β) (maxR : Int)
    (hY : 0 < maxR) :
    ∀ fuel total idx,
      YouTube.searchChannelGo (zeroTokYt α) mY maxR fuel [] total idx = none := by
  intro fuel
  induction fuel with
  | zero => intro total idx; rfl
  | succ n ih =>
    intro total idx
    simp [YouTube.searchChannelGo, zeroTokYt, truthy, ih, hY]

/-- C4 (amended): the Brave loop does terminate on a zero-item page (its
short-page check fires as soon as the batch size is positive, i.e. for
`count ≥ 1` and `total_results ≥ 1`, after a single fetch), but the
calendar and YouTube loops do not treat a zero-item page as exhaustion:
on a source that always returns zero items with a continuation token they
exhaust any amount of fuel without terminating. -/
theorem c4_amended (α β : Type) (mC mY mB : α → β)
    (limitC limitE maxR : Int) (hC : 0 < limitC) (hE : 0 < limitE) (hY : 0 < maxR)
    (fuelC fuelE fuelY : Nat)
    (count offset tot : Int) (hcount : 1 ≤ count) (htot : 1 ≤ tot) :
    Calendar.list_calendars (zeroTokCal α) mC limitC fuelC = none
    ∧ Calendar.list_calendar_events (zeroTokCal α) limitE fuelE = none
    ∧ YouTube.search_channel (zeroTokYt α) mY maxR fuelY = none
    ∧ Brave.web_search (zeroItemsBrave α) mB count offset tot 1
        = some (.ok [], some ⟨some ⟨some []⟩⟩, [(min (min count 20) tot, offset)]) := by
  have hb : (0:Int) < min (min count 20) tot := by omega
  refine ⟨?_, ?_, ?_, ?_⟩
  · simp only [Calendar.list_calendars, listCalendarsGo_zeroTok α limitC hC fuelC 0]
  · exact listEventsGo_zeroTok α limitE hE fuelE 0
  · exact searchChannelGo_zeroTok α β mY maxR hY fuelY 0 0
  · simp [Brave.web_search, Brave.braveGo, zeroItemsBrave, pyTake, hb,
      show (0:Int) < tot by omega]

/-- C4 (witness): concrete instantiation of `c4_amended` at target 1,
fuel 3, and Brave parameters `count = 1`, `offset = 0`, `total = 1`. -/
theorem c4_witness :
    Calendar.list_calendars (zeroTokCal Nat) (fun a => a) 1 3 = none
    ∧ Calendar.list_calendar_events (zeroTokCal Nat) 1 3 = none
    ∧ YouTube.search_channel (zeroTokYt Nat) (fun a => a) 1 3 = none
    ∧ Brave.web_search (zeroItemsBrave Nat) (fun a => a) 1 0 1 1
        = some (.ok [], some ⟨some ⟨some []⟩⟩, [(min (min 1 20) 1, 0)]) :=
  c4_amended Nat Nat (fun a => a) (fun a => a) (fun a => a) 1 1 1
    (by decide) (by decide) (by decide) 3 3 3 1 0 1 (by decide) (by decide)

/-! ## C7 — no InvalidRequest fail-fast on negative target_count -/

/-- C7 (counterexample): the claim says a call with `target_count < 0`
fails fast with an `InvalidRequest` error before any network call.  But
`GoogleCalendarTool.list_calendars` with `limit_total_results = -1` issues
one API call (with `maxResults = -1`, the request trace below is `[-1]`)
and then returns normally; no error of any kind is raised. -/
theorem c7_counterexample :
    Calendar.list_calendars calSrcEmpty (fun a => a) (-1) 1 = some ([], [-1]) := by
  decide

/-- C7 (amended): no instantiation validates its inputs.  With a negative
target the YouTube loops return an empty result normally without fetching,
the calendar loops issue one fetch with a negative `maxResults`
(`list_calendar_events` even applying the Python negative slice to the
fetched page), and Brave issues no fetch but raises `UnboundLocalError`;
there is no `InvalidRequest` fail-fast anywhere. -/
theorem c7_amended (α β : Type) (srcY : Nat → YouTube.YtPage α) (mY : α → β)
    (srcC : Nat → Calendar.CalPage α) (mC : α → β)
    (srcE : Nat → Calendar.CalPage α)
    (srcB : Nat → Brave.BravePage α) (mB : α → β)
    (maxR limitC limitE tot count offset : Int)
    (hY : maxR < 0) (hC : limitC < 0) (hE : limitE < 0) (hB : tot < 0)
    (fuelY fuelC fuelE fuelB : Nat) :
    YouTube.search_channel srcY mY maxR (fuelY+1) = some ([], 0, [])
    ∧ Calendar.list_calendars srcC mC limitC (fuelC+1)
        = some (((srcC 0).items).map mC, [min 250 limitC])
    ∧ Calendar.list_calendar_events srcE limitE (fuelE+1)
        = some (pyTake limitE ((srcE 0).items), [min 250 limitE])
    ∧ Brave.web_search srcB mB count offset tot (fuelB+1)
        = some (.unboundLocalError, none, []) := by
  refine ⟨?_, ?_, ?_, ?_⟩
  · simp [YouTube.search_channel, YouTube.searchChannelGo,
      show ¬ ((0:Int) < maxR) by omega]
  · have h : limitC ≤ ((((srcC 0).items).length : Nat) : Int) :=
      le_trans hC.le (Int.natCast_nonneg _)
    simp [Calendar.list_calendars, Calendar.listCalendarsGo, h]
  · have h : limitE ≤ ((((srcE 0).items).length : Nat) : Int) :=
      le_trans hE.le (Int.natCast_nonneg _)
    simp [Calendar.list_calendar_events, Calendar.listEventsGo, h]
  · simp [Brave.web_search, Brave.braveGo, show ¬ ((0:Int) < tot) by omega]

/-- C7 (witness): concrete instantiation of `c7_amended` at target `-1`;
note `list_calendars` returns the two fetched items untruncated and
`list_calendar_events` applies the Python slice `[:-1]`, keeping one. -/
theorem c7_witness :
    YouTube.search_channel ytSrcOne (fun a => a) (-1) 1 = some ([], 0, [])
    ∧ Calendar.list_calendars calSrcTwo (fun a => a) (-1) 1
        = some (((calSrcTwo 0).items).map (fun a => a), [min 250 (-1)])
    ∧ Calendar.list_calendar_events calSrcTwo (-1) 1
        = some (pyTake (-1) ((calSrcTwo 0).items), [min 250 (-1)])
    ∧ Brave.web_search (zeroItemsBrave Nat) (fun a => a) 20 0 (-1) 1
        = some (.unboundLocalError, none, []) :=
  c7_amended Nat Nat ytSrcOne (fun a => a) calSrcTwo (fun a => a) calSrcTwo
    (zeroItemsBrave Nat) (fun a => a) (-1) (-1) (-1) (-1) 20 0
    (by decide) (by decide) (by decide) (by decide) 0 0 0 0

/-! ## C9 — Exa get_answer skip-and-continue mapping policy -/

/-- Counting helper for `get_answer`: the number of successfully converted
citations plus the number of citations without a `url` equals the total. -/
theorem countP_isSome_convert (l : List Exa.Citation) :
    l.countP (fun a => (Exa.convertCitation a).isSome)
      + l.countP (fun c => c.url.isNone) = l.length := by
  induction l with
  | nil => rfl
  | cons c t ih =>
    cases hcu : c.url <;>
      simp [List.countP_cons, Exa.convertCitation, hcu, ← ih] <;> omega

/-- C9 (confirmed): under the skip-and-continue policy of
`ExaTool.get_answer`, a page of 10 citations of which exactly one fails
conversion (missing `url`, the pydantic-mandatory field) yields 9 records;
`get_answer` returns a normal `.ok` value, so no exception propagates. -/
theorem c9_skip_policy (resp : Exa.AnswerResponse)
    (h10 : resp.citations.length = 10)
    (h1 : resp.citations.countP (fun c => c.url.isNone) = 1) :
    Exa.get_answer (.ok resp)
      = .ok ⟨resp.answer, resp.citations.filterMap Exa.convertCitation⟩
    ∧ (resp.citations.filterMap Exa.convertCitation).length = 9 := by
  refine ⟨rfl, ?_⟩
  have hlen := List.length_filterMap_eq_countP (f := Exa.convertCitation)
    (l := resp.citations)
  have hsum := countP_isSome_convert resp.citations
  omega

/-- C9 (witness): `c9_skip_policy` applied to the concrete ten-citation
response whose third citation fails conversion. -/
theorem c9_witness :
    Exa.get_answer (.ok c9resp)
      = .ok ⟨c9resp.answer, c9resp.citations.filterMap Exa.convertCitation⟩
    ∧ (c9resp.citations.filterMap Exa.convertCitation).length = 9 :=
  c9_skip_policy c9resp (by decide) (by decide)

/-! ## C10 — get_page_content is total over its error cases -/

/-- C10 (confirmed): `get_page_content` returns a string on every outcome
of the fetch/parse attempt: the empty string on an HTTP status error, on a
transport error, and on any other exception, and on success the extracted
page text with every newline replaced by a space. -/
theorem c10_total (extract : String → String) (o : Scraping.FetchOutcome) :
    (∀ c b, o = .httpStatusError c b → Scraping.get_page_content extract o = "")
    ∧ (∀ m, o = .requestError m → Scraping.get_page_content extract o = "")
    ∧ (∀ m, o = .otherError m → Scraping.get_page_content extract o = "")
    ∧ (∀ t, o = .success t →
        Scraping.get_page_content extract o
          = (extract t).replace "\n" " ") := by
  exact ⟨fun c b h => by subst h; rfl, fun m h => by subst h; rfl,
    fun m h => by subst h; rfl, fun t h => by subst h; rfl⟩

/-- C10 (witness): `c10_total` at the successful fetch of a two-line page
with the identity extraction. -/
theorem c10_witness :
    Scraping.get_page_content (fun s => s) (.success "a\nb")
      = ((fun s : String => s) "a\nb").replace "\n" " " :=
  (c10_total (fun s => s) (.success "a\nb")).2.2.2 "a\nb" rfl

/-- Run characterization of the `list_calendars` loop: the final
accumulator is the initial one followed by all fetched pages in order, and
the `maxResults` sent with the j-th fetch is
`min(250, limit - results_count_before_fetch_j)`. -/
theorem listCalendarsGo_spec (src : Nat → Calendar.CalPage α) (limit : Int) :
    ∀ fuel acc idx res reqs,
      Calendar.listCalendarsGo src limit fuel acc idx = some (res, reqs) →
      res = acc ++ Calendar.concatFrom src idx reqs.length
      ∧ ∀ j, j < reqs.length →
          reqs.getD j 0
            = min 250 (limit - ((acc.length + Calendar.servedFrom src idx j : Nat) : Int)) := by
  intro fuel
  induction fuel with
  | zero =>
    intro acc idx res reqs h
    exact absurd h (by simp [Calendar.listCalendarsGo])
  | succ n ih =>
    intro acc idx res reqs h
    simp only [Calendar.listCalendarsGo] at h
    split at h
    · simp only [Option.some.injEq, Prod.mk.injEq] at h
      obtain ⟨rfl, rfl⟩ := h
      refine ⟨by simp [Calendar.concatFrom], ?_⟩
      intro j hj
      obtain rfl : j = 0 := by simpa using hj
      simp [Calendar.servedFrom, Calendar.concatFrom]
    · split at h
      · cases hrec : Calendar.listCalendarsGo src limit n (acc ++ (src idx).items) (idx+1) with
        | none => rw [hrec] at h; cases h
        | some pr =>
          obtain ⟨res', reqs'⟩ := pr
          rw [hrec] at h
          simp only [Option.some.injEq, Prod.mk.injEq] at h
          obtain ⟨rfl, rfl⟩ := h
          obtain ⟨ih1, ih2⟩ := ih (acc ++ (src idx).items) (idx+1) res' reqs' hrec
          constructor
          · rw [ih1]
            simp [Calendar.concatFrom]
          · intro j hj
            cases j with
            | zero => simp [Calendar.servedFrom, Calendar.concatFrom]
            | succ jj =>
              have hjj : jj < reqs'.length := by simpa using hj
              have hgd : (min 250 (limit - ((acc.length : Nat) : Int)) :: reqs').getD (jj+1) 0
                  = reqs'.getD jj 0 := rfl
              rw [hgd, ih2 jj hjj]
              have hA : (acc ++ (src idx).items).length + Calendar.servedFrom src (idx+1) jj
                  = acc.length + Calendar.servedFrom src idx (jj+1) := by
                simp [Calendar.servedFrom, Calendar.concatFrom]
                omega
              rw [hA]
      · simp only [Option.some.injEq, Prod.mk.injEq] at h
        obtain ⟨rfl, rfl⟩ := h
        refine ⟨by simp [Calendar.concatFrom], ?_⟩
        intro j hj
        obtain rfl : j = 0 := by simpa using hj
        simp [Calendar.servedFrom, Calendar.concatFrom]

/-- `pyTake` always yields a prefix of its input list. -/
theorem pyTake_prefixed (n : Int) (l : List α) :
    List.IsPrefix (pyTake n l) l := by
  unfold pyTake
  split <;> exact ⟨l.drop _, List.take_append_drop _ l⟩

/-- For a nonnegative bound, `pyTake` yields at most that many items. -/
theorem pyTake_length_le (n : Int) (hn : 0 ≤ n) (l : List α) :
    (((pyTake n l).length : Nat) : Int) ≤ n := by
  simp only [pyTake, if_pos hn, List.length_take]
  omega

/-- Adding one more page on the right of a served-page range. -/
theorem servedFrom_snoc (src : Nat → Calendar.CalPage α) :
    ∀ start k, Calendar.servedFrom src start (k+1)
      = Calendar.servedFrom src start k + ((src (start + k)).items).length := by
  intro start k
  induction k generalizing start with
  | zero => simp [Calendar.servedFrom, Calendar.concatFrom]
  | succ k ih =>
    have h1 : Calendar.servedFrom src start (k+1+1)
        = ((src start).items).length + Calendar.servedFrom src (start+1) (k+1) := by
      simp [Calendar.servedFrom, Calendar.concatFrom]
    have h2 : Calendar.servedFrom src start (k+1)
        = ((src start).items).length + Calendar.servedFrom src (start+1) k := by
      simp [Calendar.servedFrom, Calendar.concatFrom]
    rw [h1, h2, ih (start+1)]
    have h3 : start + 1 + k = start + (k+1) := by omega
    rw [h3]
    omega

/-- Run characterization of the `list_calendar_events` loop: the result is
a prefix of the initial accumulator followed by all fetched pages, and the
request trace is as for `list_calendars`. -/
theorem listEventsGo_spec (src : Nat → Calendar.CalPage α) (limit : Int) :
    ∀ fuel acc idx res reqs,
      Calendar.listEventsGo src limit fuel acc idx = some (res, reqs) →
      (List.IsPrefix res (acc ++ Calendar.concatFrom src idx reqs.length))
      ∧ ∀ j, j < reqs.length →
          reqs.getD j 0
            = min 250 (limit - ((acc.length + Calendar.servedFrom src idx j : Nat) : Int)) := by
  intro fuel
  induction fuel with
  | zero =>
    intro acc idx res reqs h
    exact absurd h (by simp [Calendar.listEventsGo])
  | succ n ih =>
    intro acc idx res reqs h
    simp only [Calendar.listEventsGo] at h
    split at h
    · simp only [Option.some.injEq, Prod.mk.injEq] at h
      obtain ⟨rfl, rfl⟩ := h
      constructor
      · simp only [List.length_singleton, Calendar.concatFrom, List.append_nil]
        exact pyTake_prefixed limit (acc ++ (src idx).items)
      · intro j hj
        obtain rfl : j = 0 := by simpa using hj
        simp [Calendar.servedFrom, Calendar.concatFrom]
    · split at h
      · cases hrec : Calendar.listEventsGo src limit n (acc ++ (src idx).items) (idx+1) with
        | none => rw [hrec] at h; cases h
        | some pr =>
          obtain ⟨res', reqs'⟩ := pr
          rw [hrec] at h
          simp only [Option.some.injEq, Prod.mk.injEq] at h
          obtain ⟨rfl, rfl⟩ := h
          obtain ⟨ih1, ih2⟩ := ih (acc ++ (src idx).items) (idx+1) res' reqs' hrec
          constructor
          · have he : (acc ++ (src idx).items) ++ Calendar.concatFrom src (idx+1) reqs'.length
                = acc ++ Calendar.concatFrom src idx (reqs'.length + 1) := by
              simp [Calendar.concatFrom, List.append_assoc]
            rw [List.length_cons]
            rw [← he]
            exact ih1
          · intro j hj
            cases j with
            | zero => simp [Calendar.servedFrom, Calendar.concatFrom]
            | succ jj =>
              have hjj : jj < reqs'.length := by simpa using hj
              have hgd : (min 250 (limit - ((acc.length : Nat) : Int)) :: reqs').getD (jj+1) 0
                  = reqs'.getD jj 0 := rfl
              rw [hgd, ih2 jj hjj]
              have hA : (acc ++ (src idx).items).length + Calendar.servedFrom src (idx+1) jj
                  = acc.length + Calendar.servedFrom src idx (jj+1) := by
                simp [Calendar.servedFrom, Calendar.concatFrom]
                omega
              rw [hA]
      · simp only [Option.some.injEq, Prod.mk.injEq] at h
        obtain ⟨rfl, rfl⟩ := h
        constructor
        · simp only [List.length_singleton, Calendar.concatFrom, List.append_nil]
          exact List.prefix_rfl
        · intro j hj
          obtain rfl : j = 0 := by simpa using hj
          simp [Calendar.servedFrom, Calendar.concatFrom]

/-- The `list_calendar_events` loop never returns more than `limit` items
(for a nonnegative limit), for every source: it truncates on reaching the
limit and otherwise stays strictly below it. -/
theorem listEventsGo_bound (src : Nat → Calendar.CalPage α) (limit : Int)
    (hl : 0 ≤ limit) :
    ∀ fuel acc idx res reqs,
      Calendar.listEventsGo src limit fuel acc idx = some (res, reqs) →
      ((res.length : Nat) : Int) ≤ limit := by
  intro fuel
  induction fuel with
  | zero =>
    intro acc idx res reqs h
    exact absurd h (by simp [Calendar.listEventsGo])
  | succ n ih =>
    intro acc idx res reqs h
    simp only [Calendar.listEventsGo] at h
    split at h
    · simp only [Option.some.injEq, Prod.mk.injEq] at h
      obtain ⟨rfl, rfl⟩ := h
      exact pyTake_length_le limit hl _
    · rename_i hstop
      split at h
      · cases hrec : Calendar.listEventsGo src limit n (acc ++ (src idx).items) (idx+1) with
        | none => rw [hrec] at h; cases h
        | some pr =>
          obtain ⟨res', reqs'⟩ := pr
          rw [hrec] at h
          simp only [Option.some.injEq, Prod.mk.injEq] at h
          obtain ⟨rfl, rfl⟩ := h
          exact ih (acc ++ (src idx).items) (idx+1) res' reqs' hrec
      · simp only [Option.some.injEq, Prod.mk.injEq] at h
        obtain ⟨rfl, rfl⟩ := h
        omega

/-- Under a conforming source the `list_calendars` loop keeps its
accumulator within the limit. -/
theorem listCalendarsGo_bound (src : Nat → Calendar.CalPage α) (limit : Int)
    (hconf : Calendar.conforming src limit) :
    ∀ fuel acc idx res reqs,
      acc.length = Calendar.servedFrom src 0 idx →
      ((acc.length : Nat) : Int) ≤ limit →
      Calendar.listCalendarsGo src limit fuel acc idx = some (res, reqs) →
      ((res.length : Nat) : Int) ≤ limit := by
  intro fuel
  induction fuel with
  | zero =>
    intro acc idx res reqs _ _ h
    exact absurd h (by simp [Calendar.listCalendarsGo])
  | succ n ih =>
    intro acc idx res reqs hacc hle h
    have hpage := hconf idx
    rw [← hacc] at hpage
    have hacc2 : (acc ++ (src idx).items).length = Calendar.servedFrom src 0 (idx+1) := by
      rw [servedFrom_snoc src 0 idx]
      simp [← hacc]
    have hle2 : (((acc ++ (src idx).items).length : Nat) : Int) ≤ limit := by
      simp only [List.length_append]
      push_cast
      omega
    simp only [Calendar.listCalendarsGo] at h
    split at h
    · simp only [Option.some.injEq, Prod.mk.injEq] at h
      obtain ⟨rfl, rfl⟩ := h
      exact hle2
    · split at h
      · cases hrec : Calendar.listCalendarsGo src limit n (acc ++ (src idx).items) (idx+1) with
        | none => rw [hrec] at h; cases h
        | some pr =>
          obtain ⟨res', reqs'⟩ := pr
          rw [hrec] at h
          simp only [Option.some.injEq, Prod.mk.injEq] at h
          obtain ⟨rfl, rfl⟩ := h
          exact ih (acc ++ (src idx).items) (idx+1) res' reqs' hacc2 hle2 hrec
      · simp only [Option.some.injEq, Prod.mk.injEq] at h
        obtain ⟨rfl, rfl⟩ := h
        exact hle2

/-- Adding one more page on the right of a served-page range. -/
theorem ytServedFrom_snoc (src : Nat → YouTube.YtPage α) :
    ∀ start k, YouTube.servedFrom src start (k+1)
      = YouTube.servedFrom src start k + ((src (start + k)).items).length := by
  intro start k
  induction k generalizing start with
  | zero => simp [YouTube.servedFrom, YouTube.concatFrom]
  | succ k ih =>
    have h1 : YouTube.servedFrom src start (k+1+1)
        = ((src start).items).length + YouTube.servedFrom src (start+1) (k+1) := by
      simp [YouTube.servedFrom, YouTube.concatFrom]
    have h2 : YouTube.servedFrom src start (k+1)
        = ((src start).items).length + YouTube.servedFrom src (start+1) k := by
      simp [YouTube.servedFrom, YouTube.concatFrom]
    rw [h1, h2, ih (start+1)]
    have h3 : start + 1 + k = start + (k+1) := by omega
    rw [h3]
    omega

/-- Run characterization of the YouTube search loop: the final list is the
initial one followed by the mapped items of all fetched pages in order,
the `maxResults` sent with the j-th fetch is
`min(50, max_results - len_of_lst_before_fetch_j)`, and the returned
`total_results` is the one reported by the **last** fetched page (the
initial value when no fetch happened). -/
theorem searchChannelGo_spec (src : Nat → YouTube.YtPage α) (mapper : α → β)
    (maxResults : Int) :
    ∀ fuel lst total idx res totOut reqs,
      YouTube.searchChannelGo src mapper maxResults fuel lst total idx
        = some (res, totOut, reqs) →
      res = lst ++ (YouTube.concatFrom src idx reqs.length).map mapper
      ∧ (∀ j, j < reqs.length →
          reqs.getD j 0
            = min 50 (maxResults - ((lst.length + YouTube.servedFrom src idx j : Nat) : Int)))
      ∧ totOut = (if reqs.length = 0 then total
          else (src (idx + (reqs.length - 1))).totalResults) := by
  intro fuel
  induction fuel with
  | zero =>
    intro lst total idx res totOut reqs h
    exact absurd h (by simp [YouTube.searchChannelGo])
  | succ n ih =>
    intro lst total idx res totOut reqs h
    simp only [YouTube.searchChannelGo] at h
    split at h
    · split at h
      · cases hrec : YouTube.searchChannelGo src mapper maxResults n
            (lst ++ (src idx).items.map mapper) ((src idx).totalResults) (idx+1) with
        | none => rw [hrec] at h; cases h
        | some pr =>
          obtain ⟨res', tot', reqs'⟩ := pr
          rw [hrec] at h
          simp only [Option.some.injEq, Prod.mk.injEq] at h
          obtain ⟨rfl, rfl, rfl⟩ := h
          obtain ⟨ih1, ih2, ih3⟩ := ih (lst ++ (src idx).items.map mapper)
            ((src idx).totalResults) (idx+1) res' tot' reqs' hrec
          refine ⟨?_, ?_, ?_⟩
          · rw [ih1]
            simp [YouTube.concatFrom]
          · intro j hj
            cases j with
            | zero => simp [YouTube.servedFrom, YouTube.concatFrom]
            | succ jj =>
              have hjj : jj < reqs'.length := by simpa using hj
              have hgd : (min 50 (maxResults - ((lst.length : Nat) : Int)) :: reqs').getD (jj+1) 0
                  = reqs'.getD jj 0 := rfl
              rw [hgd, ih2 jj hjj]
              have hA : (lst ++ (src idx).items.map mapper).length
                    + YouTube.servedFrom src (idx+1) jj
                  = lst.length + YouTube.servedFrom src idx (jj+1) := by
                simp [YouTube.servedFrom, YouTube.concatFrom]
                omega
              rw [hA]
          · rw [ih3]
            cases hk : reqs'.length with
            | zero => simp [hk]
            | succ k =>
              have h4 : idx + 1 + k = idx + (k + 1) := by omega
              simp [hk, h4]
      · simp only [Option.some.injEq, Prod.mk.injEq] at h
        obtain ⟨rfl, rfl, rfl⟩ := h
        refine ⟨by simp [YouTube.concatFrom], ?_, by simp⟩
        intro j hj
        obtain rfl : j = 0 := by simpa using hj
        simp [YouTube.servedFrom, YouTube.concatFrom]
    · simp only [Option.some.injEq, Prod.mk.injEq] at h
      obtain ⟨rfl, rfl, rfl⟩ := h
      exact ⟨by simp [YouTube.concatFrom], by intro j hj; simp at hj, by simp⟩

/-- Under a conforming source the YouTube search loop keeps its list
within `max_results`. -/
theorem searchChannelGo_bound (src : Nat → YouTube.YtPage α) (mapper : α → β)
    (maxResults : Int) (hconf : YouTube.conforming src maxResults) :
    ∀ fuel lst total idx res totOut reqs,
      lst.length = YouTube.servedFrom src 0 idx →
      ((lst.length : Nat) : Int) ≤ maxResults →
      YouTube.searchChannelGo src mapper maxResults fuel lst total idx
        = some (res, totOut, reqs) →
      ((res.length : Nat) : Int) ≤ maxResults := by
  intro fuel
  induction fuel with
  | zero =>
    intro lst total idx res totOut reqs _ _ h
    exact absurd h (by simp [YouTube.searchChannelGo])
  | succ n ih =>
    intro lst total idx res totOut reqs hacc hle h
    have hpage := hconf idx
    rw [← hacc] at hpage
    have hacc2 : (lst ++ (src idx).items.map mapper).length
        = YouTube.servedFrom src 0 (idx+1) := by
      rw [ytServedFrom_snoc src 0 idx]
      simp [← hacc]
    have hle2 : (((lst ++ (src idx).items.map mapper).length : Nat) : Int) ≤ maxResults := by
      simp only [List.length_append, List.length_map]
      push_cast
      omega
    simp only [YouTube.searchChannelGo] at h
    split at h
    · split at h
      · cases hrec : YouTube.searchChannelGo src mapper maxResults n
            (lst ++ (src idx).items.map mapper) ((src idx).totalResults) (idx+1) with
        | none => rw [hrec] at h; cases h
        | some pr =>
          obtain ⟨res', tot', reqs'⟩ := pr
          rw [hrec] at h
          simp only [Option.some.injEq, Prod.mk.injEq] at h
          obtain ⟨rfl, rfl, rfl⟩ := h
          exact ih (lst ++ (src idx).items.map mapper) ((src idx).totalResults)
            (idx+1) res' tot' reqs' hacc2 hle2 hrec
      · simp only [Option.some.injEq, Prod.mk.injEq] at h
        obtain ⟨rfl, rfl, rfl⟩ := h
        exact hle2
    · simp only [Option.some.injEq, Prod.mk.injEq] at h
      obtain ⟨rfl, rfl, rfl⟩ := h
      exact hle

/-- Run characterization of the Brave loop: the accumulated results are
the initial ones followed by the consumed results of every fetched page in
order; the `count` parameter sent with the j-th fetch is
`min(min(count, 20), remaining_before_fetch_j)`; and every fetch that is
followed by another one consumed a page with `web.results` present and at
least as many items as requested (the short-page rule). -/
theorem braveGo_spec (src : Nat → Brave.BravePage α) (apiCount offset0 : Int) :
    ∀ fuel all curOff remaining comb idx allOut offOut combOut reqs,
      Brave.braveGo src apiCount offset0 fuel all curOff remaining comb idx
        = some (allOut, offOut, combOut, reqs) →
      allOut = all ++ Brave.concatFrom src idx reqs.length
      ∧ (∀ j, j < reqs.length →
          (reqs.getD j (0, 0)).1
            = min apiCount (remaining - (Brave.servedFrom src idx j : Int)))
      ∧ (∀ j, j + 1 < reqs.length →
          (src (idx + j)).full = true
          ∧ (reqs.getD j (0, 0)).1 ≤ (((src (idx + j)).itemsD.length : Nat) : Int)) := by
  intro fuel
  induction fuel with
  | zero =>
    intro all curOff remaining comb idx allOut offOut combOut reqs h
    exact absurd h (by simp [Brave.braveGo])
  | succ n ih =>
    intro all curOff remaining comb idx allOut offOut combOut reqs h
    simp only [Brave.braveGo] at h
    split at h
    · split at h
      next w hw =>
        split at h
        next ws hws =>
          have hitems : (src idx).itemsD = ws := by
            simp [Brave.BravePage.itemsD, hw, hws]
          split at h
          · simp only [Option.some.injEq, Prod.mk.injEq] at h
            obtain ⟨rfl, rfl, rfl, rfl⟩ := h
            refine ⟨by simp [Brave.concatFrom, hitems], ?_, ?_⟩
            · intro j hj
              obtain rfl : j = 0 := by simpa using hj
              simp [Brave.servedFrom, Brave.concatFrom]
            · intro j hj
              simp at hj
          next hshort =>
            split at h
            · simp only [Option.some.injEq, Prod.mk.injEq] at h
              obtain ⟨rfl, rfl, rfl, rfl⟩ := h
              refine ⟨by simp [Brave.concatFrom, hitems], ?_, ?_⟩
              · intro j hj
                obtain rfl : j = 0 := by simpa using hj
                simp [Brave.servedFrom, Brave.concatFrom]
              · intro j hj
                simp at hj
            · cases hrec : Brave.braveGo src apiCount offset0 n (all ++ ws)
                  (curOff + (ws.length : Int)) (remaining - (ws.length : Int))
                  (if (curOff == offset0) = true then some (src idx) else comb)
                  (idx+1) with
              | none => rw [hrec] at h; cases h
              | some pr =>
                obtain ⟨all', off', comb', reqs'⟩ := pr
                rw [hrec] at h
                simp only [Option.some.injEq, Prod.mk.injEq] at h
                obtain ⟨rfl, rfl, rfl, rfl⟩ := h
                obtain ⟨ih1, ih2, ih3⟩ := ih (all ++ ws) (curOff + (ws.length : Int))
                  (remaining - (ws.length : Int))
                  (if (curOff == offset0) = true then some (src idx) else comb)
                  (idx+1) all' off' comb' reqs' hrec
                refine ⟨?_, ?_, ?_⟩
                · rw [ih1]
                  simp [Brave.concatFrom, hitems]
                · intro j hj
                  cases j with
                  | zero => simp [Brave.servedFrom, Brave.concatFrom]
                  | succ jj =>
                    have hjj : jj < reqs'.length := by simpa using hj
                    have hgd : ((min apiCount remaining, curOff) :: reqs').getD (jj+1) (0, 0)
                        = reqs'.getD jj (0, 0) := rfl
                    rw [hgd, ih2 jj hjj]
                    have hA : (remaining - (ws.length : Int))
                          - (Brave.servedFrom src (idx+1) jj : Int)
                        = remaining - (Brave.servedFrom src idx (jj+1) : Int) := by
                      have hsv : Brave.servedFrom src idx (jj+1)
                          = ws.length + Brave.servedFrom src (idx+1) jj := by
                        simp [Brave.servedFrom, Brave.concatFrom, hitems]
                      rw [hsv]
                      push_cast
                      ring
                    rw [hA]
                · intro j hj
                  cases j with
                  | zero =>
                    constructor
                    · simp [Brave.BravePage.full, hw, hws]
                    · simp only [List.getD_cons_zero, Nat.add_zero, hitems]
                      omega
                  | succ jj =>
                    have hjj : jj + 1 < reqs'.length := by simpa using hj
                    have h4 : idx + 1 + jj = idx + (jj + 1) := by omega
                    have h5 := ih3 jj hjj
                    rw [h4] at h5
                    exact h5
        next hws =>
          simp only [Option.some.injEq, Prod.mk.injEq] at h
          obtain ⟨rfl, rfl, rfl, rfl⟩ := h
          refine ⟨by simp [Brave.concatFrom, Brave.BravePage.itemsD, hw, hws], ?_, ?_⟩
          · intro j hj
            obtain rfl : j = 0 := by simpa using hj
            simp [Brave.servedFrom, Brave.concatFrom]
          · intro j hj
            simp at hj
      next hw =>
        simp only [Option.some.injEq, Prod.mk.injEq] at h
        obtain ⟨rfl, rfl, rfl, rfl⟩ := h
        refine ⟨by simp [Brave.concatFrom, Brave.BravePage.itemsD, hw], ?_, ?_⟩
        · intro j hj
          obtain rfl : j = 0 := by simpa using hj
          simp [Brave.servedFrom, Brave.concatFrom]
        · intro j hj
          simp at hj
    · simp only [Option.some.injEq, Prod.mk.injEq] at h
      obtain ⟨rfl, rfl, rfl, rfl⟩ := h
      refine ⟨by simp [Brave.concatFrom], ?_, ?_⟩
      · intro j hj
        simp at hj
      · intro j hj
        simp at hj

/-- Unfolding of a successful `web_search` run: a normal result comes from
a loop run whose captured envelope has a `web` key, and equals the Python
slice `all_results[:total_results]` mapped into records. -/
theorem web_search_ok (src : Nat → Brave.BravePage α) (mapper : α → β)
    (count offset tot : Int) (fuel : Nat) (res : List β)
    (comb : Option (Brave.BravePage α)) (reqs : List (Int × Int))
    (h : Brave.web_search src mapper count offset tot fuel
        = some (Brave.BraveOutcome.ok res, comb, reqs)) :
    ∃ all offOut c,
      Brave.braveGo src (min count 20) offset fuel [] offset tot none 0
        = some (all, offOut, some c, reqs)
      ∧ comb = some c
      ∧ res = (pyTake tot all).map mapper := by
  unfold Brave.web_search at h
  split at h
  · cases h
  next all offOut combOut reqsOut hgo =>
    split at h
    · cases h
    next c =>
      split at h
      · cases h
      next w hcw =>
        simp only [Option.some.injEq, Prod.mk.injEq, Brave.BraveOutcome.ok.injEq] at h
        obtain ⟨rfl, rfl, rfl⟩ := h
        exact ⟨all, offOut, c, by rw [hgo], rfl, rfl⟩

/-- Once the loop's offset has moved strictly past the initial offset, the
captured `combined_results` envelope can no longer change. -/
theorem braveGo_comb_frozen (src : Nat → Brave.BravePage α) (apiCount offset0 : Int) :
    ∀ fuel all curOff remaining comb idx allOut offOut combOut reqs,
      offset0 < curOff →
      Brave.braveGo src apiCount offset0 fuel all curOff remaining comb idx
        = some (allOut, offOut, combOut, reqs) →
      combOut = comb := by
  intro fuel
  induction fuel with
  | zero =>
    intro all curOff remaining comb idx allOut offOut combOut reqs _ h
    exact absurd h (by simp [Brave.braveGo])
  | succ n ih =>
    intro all curOff remaining comb idx allOut offOut combOut reqs hlt h
    have hne : (curOff == offset0) = false := by
      simp only [beq_eq_false_iff_ne, ne_eq]
      omega
    simp only [Brave.braveGo, hne, Bool.false_eq_true, if_false] at h
    split at h
    · split at h
      next w hw =>
        split at h
        next ws hws =>
          split at h
          · simp only [Option.some.injEq, Prod.mk.injEq] at h
            exact h.2.2.1.symm
          · split at h
            · simp only [Option.some.injEq, Prod.mk.injEq] at h
              exact h.2.2.1.symm
            · cases hrec : Brave.braveGo src apiCount offset0 n (all ++ ws)
                  (curOff + (ws.length : Int)) (remaining - (ws.length : Int))
                  comb (idx+1) with
              | none => rw [hrec] at h; cases h
              | some pr =>
                obtain ⟨all', off', comb', reqs'⟩ := pr
                rw [hrec] at h
                simp only [Option.some.injEq, Prod.mk.injEq] at h
                obtain ⟨rfl, rfl, rfl, rfl⟩ := h
                exact ih (all ++ ws) (curOff + (ws.length : Int))
                  (remaining - (ws.length : Int)) comb (idx+1) all' off' comb' reqs'
                  (by have := Int.natCast_nonneg ws.length; omega) hrec
        next hws =>
          simp only [Option.some.injEq, Prod.mk.injEq] at h
          exact h.2.2.1.symm
      next hw =>
        simp only [Option.some.injEq, Prod.mk.injEq] at h
        exact h.2.2.1.symm
    · simp only [Option.some.injEq, Prod.mk.injEq] at h
      exact h.2.2.1.symm

/-- In a run started at the initial offset with at least one fetch and a
positive `api_count`, the captured envelope is the first page's response:
the capture condition `current_offset == offset` holds only on the first
iteration, because every continuing iteration strictly advances the
offset. -/
theorem braveGo_comb_first (src : Nat → Brave.BravePage α) (apiCount : Int)
    (hapi : 1 ≤ apiCount) (offset0 : Int) :
    ∀ fuel all remaining comb idx allOut offOut combOut reqs,
      Brave.braveGo src apiCount offset0 fuel all offset0 remaining comb idx
        = some (allOut, offOut, combOut, reqs) →
      reqs ≠ [] →
      combOut = some (src idx) := by
  intro fuel
  cases fuel with
  | zero =>
    intro all remaining comb idx allOut offOut combOut reqs h
    exact absurd h (by simp [Brave.braveGo])
  | succ n =>
    intro all remaining comb idx allOut offOut combOut reqs h hne
    simp only [Brave.braveGo, beq_self_eq_true, if_true] at h
    split at h
    next hrem =>
      split at h
      next w hw =>
        split at h
        next ws hws =>
          split at h
          · simp only [Option.some.injEq, Prod.mk.injEq] at h
            exact h.2.2.1.symm
          next hshort =>
            split at h
            · simp only [Option.some.injEq, Prod.mk.injEq] at h
              exact h.2.2.1.symm
            · cases hrec : Brave.braveGo src apiCount offset0 n (all ++ ws)
                  (offset0 + (ws.length : Int)) (remaining - (ws.length : Int))
                  (some (src idx)) (idx+1) with
              | none => rw [hrec] at h; cases h
              | some pr =>
                obtain ⟨all', off', comb', reqs'⟩ := pr
                rw [hrec] at h
                simp only [Option.some.injEq, Prod.mk.injEq] at h
                obtain ⟨rfl, rfl, rfl, rfl⟩ := h
                have hwpos : 1 ≤ (ws.length : Int) := by
                  have hb : (1:Int) ≤ min apiCount remaining := by omega
                  omega
                exact braveGo_comb_frozen src apiCount offset0 n (all ++ ws)
                  (offset0 + (ws.length : Int)) (remaining - (ws.length : Int))
                  (some (src idx)) (idx+1) all' off' comb' reqs'
                  (by omega) hrec
        next hws =>
          simp only [Option.some.injEq, Prod.mk.injEq] at h
          exact h.2.2.1.symm
      next hw =>
        simp only [Option.some.injEq, Prod.mk.injEq] at h
        exact h.2.2.1.symm
    next hrem =>
      simp only [Option.some.injEq, Prod.mk.injEq] at h
      obtain ⟨rfl, rfl, rfl, rfl⟩ := h
      exact absurd rfl hne

/-- Unfolding of any completed `web_search` run: the request trace comes
from the underlying loop run, whatever the outcome. -/
theorem web_search_run (src : Nat → Brave.BravePage α) (mapper : α → β)
    (count offset tot : Int) (fuel : Nat) (out : Brave.BraveOutcome β)
    (comb : Option (Brave.BravePage α)) (reqs : List (Int × Int))
    (h : Brave.web_search src mapper count offset tot fuel = some (out, comb, reqs)) :
    ∃ all offOut combOut,
      Brave.braveGo src (min count 20) offset fuel [] offset tot none 0
        = some (all, offOut, combOut, reqs) := by
  unfold Brave.web_search at h
  split at h
  · cases h
  next all offOut combOut reqsOut hgo =>
    split at h
    · simp only [Option.some.injEq, Prod.mk.injEq] at h
      obtain ⟨rfl, rfl, rfl⟩ := h
      exact ⟨all, offOut, none, hgo⟩
    next c =>
      split at h
      · simp only [Option.some.injEq, Prod.mk.injEq] at h
        obtain ⟨rfl, rfl, rfl⟩ := h
        exact ⟨all, offOut, some c, hgo⟩
      · simp only [Option.some.injEq, Prod.mk.injEq] at h
        obtain ⟨rfl, rfl, rfl⟩ := h
        exact ⟨all, offOut, some c, hgo⟩

/-- The always-empty calendar source serves no items at all. -/
theorem calSrcEmpty_concat : ∀ k start, Calendar.concatFrom calSrcEmpty start k = [] := by
  intro k
  induction k with
  | zero => intro start; rfl
  | succ k ih =>
    intro start
    simp [Calendar.concatFrom, calSrcEmpty, ih (start+1)]

/-- The always-empty calendar source conforms to every nonnegative limit. -/
theorem calSrcEmpty_conforming (limit : Int) (hl : 0 ≤ limit) :
    Calendar.conforming calSrcEmpty limit := by
  intro i
  simp [calSrcEmpty, Calendar.servedFrom, calSrcEmpty_concat]
  omega

/-- The always-empty YouTube source serves no items at all. -/
theorem ytSrcEmpty_concat : ∀ k start, YouTube.concatFrom ytSrcEmpty start k = [] := by
  intro k
  induction k with
  | zero => intro start; rfl
  | succ k ih =>
    intro start
    simp [YouTube.concatFrom, ytSrcEmpty, ih (start+1)]

/-- The always-empty YouTube source conforms to every nonnegative limit. -/
theorem ytSrcEmpty_conforming (maxR : Int) (hl : 0 ≤ maxR) :
    YouTube.conforming ytSrcEmpty maxR := by
  intro i
  simp [ytSrcEmpty, YouTube.servedFrom, ytSrcEmpty_concat]
  omega

/-! ## C2 — output length versus target_count -/

/-- C2 (counterexample): the claim says the returned length never exceeds
`target_count` for every sequence of page responses, with truncation when
the running count passes it.  But `GoogleCalendarTool.list_calendars`
never truncates: on a page carrying more items than requested (here 2
items when 1 was requested with `limit_total_results = 1`) it returns 2
records, exceeding the target. -/
theorem c2_counterexample :
    Calendar.list_calendars calSrcTwo (fun a => a) 1 1 = some ([7, 8], [1]) := by
  decide

/-- C2 (amended): `list_calendar_events` (which truncates) and Brave
(which applies `[:total_results]`) never return more than the nonnegative
target, for every source; `list_calendars` and the YouTube loops have no
truncation and respect the bound only for sources that never return more
items than the loop requested per page. -/
theorem c2_amended (α β : Type)
    (srcE : Nat → Calendar.CalPage α) (limitE : Int) (fuelE : Nat)
    (resE : List α) (reqsE : List Int)
    (hE0 : 0 ≤ limitE)
    (hE : Calendar.list_calendar_events srcE limitE fuelE = some (resE, reqsE))
    (srcB : Nat → Brave.BravePage α) (mB : α → β) (count offset tot : Int)
    (fuelB : Nat) (resB : List β) (combB : Option (Brave.BravePage α))
    (reqsB : List (Int × Int))
    (hB0 : 0 ≤ tot)
    (hB : Brave.web_search srcB mB count offset tot fuelB
        = some (Brave.BraveOutcome.ok resB, combB, reqsB))
    (srcC : Nat → Calendar.CalPage α) (mC : α → β) (limitC : Int) (fuelC : Nat)
    (resC : List β) (reqsC : List Int)
    (hC0 : 0 ≤ limitC) (hCc : Calendar.conforming srcC limitC)
    (hC : Calendar.list_calendars srcC mC limitC fuelC = some (resC, reqsC))
    (srcY : Nat → YouTube.YtPage α) (mY : α → β) (maxR : Int) (fuelY : Nat)
    (resY : List β) (totY : Int) (reqsY : List Int)
    (hY0 : 0 ≤ maxR) (hYc : YouTube.conforming srcY maxR)
    (hY : YouTube.search_channel srcY mY maxR fuelY = some (resY, totY, reqsY)) :
    ((resE.length : Nat) : Int) ≤ limitE
    ∧ ((resB.length : Nat) : Int) ≤ tot
    ∧ ((resC.length : Nat) : Int) ≤ limitC
    ∧ ((resY.length : Nat) : Int) ≤ maxR := by
  refine ⟨?_, ?_, ?_, ?_⟩
  · exact listEventsGo_bound srcE limitE hE0 fuelE [] 0 resE reqsE hE
  · obtain ⟨all, offOut, c, hgo, hcomb, hres⟩ :=
      web_search_ok srcB mB count offset tot fuelB resB combB reqsB hB
    rw [hres, List.length_map]
    exact pyTake_length_le tot hB0 all
  · unfold Calendar.list_calendars at hC
    split at hC
    · cases hC
    next res0 reqs0 hgo =>
      simp only [Option.some.injEq, Prod.mk.injEq] at hC
      obtain ⟨rfl, rfl⟩ := hC
      rw [List.length_map]
      exact listCalendarsGo_bound srcC limitC hCc fuelC [] 0 res0 reqs0 rfl
        (by simpa using hC0) hgo
  · unfold YouTube.search_channel at hY
    exact searchChannelGo_bound srcY mY maxR hYc fuelY [] 0 0 resY totY reqsY rfl
      (by simpa using hY0) hY

/-- C2 (witness): concrete instantiation of `c2_amended` with empty-page
sources at target 1 and the Brave empty-results source. -/
theorem c2_witness :
    ((([] : List Nat).length : Nat) : Int) ≤ 1
    ∧ ((([] : List Nat).length : Nat) : Int) ≤ 1
    ∧ ((([] : List Nat).length : Nat) : Int) ≤ 1
    ∧ ((([] : List Nat).length : Nat) : Int) ≤ 1 :=
  c2_amended Nat Nat calSrcEmpty 1 1 [] [1] (by decide) (by decide)
    (zeroItemsBrave Nat) (fun a => a) 1 0 1 1 [] (some ⟨some ⟨some []⟩⟩) [(1, 0)]
    (by decide) (by decide)
    calSrcEmpty (fun a => a) 1 1 [] [1] (by decide)
    (calSrcEmpty_conforming 1 (by decide)) (by decide)
    ytSrcEmpty (fun a => a) 1 1 [] 0 [1] (by decide)
    (ytSrcEmpty_conforming 1 (by decide)) (by decide)

/-! ## C3 — short-page exhaustion rule -/

/-- C3 (counterexample): the claim says every instantiation stops after a
page that yields fewer items than requested.  But
`GoogleCalendarTool.list_calendars` has no such check: with
`limit_total_results = 10` a first page of 3 items (7 fewer than the 10
requested) carrying a continuation token is followed by a second fetch —
the request trace `[10, 7]` below has two entries. -/
theorem c3_counterexample :
    Calendar.list_calendars calSrcShort (fun a => a) 10 2
      = some ([1, 2, 3, 4], [10, 7]) := by
  decide

/-- C3 (amended): only the Brave loop implements the short-page rule
(`if fetched_count < batch_count: break`): in every completed `web_search`
run, a fetch that is followed by another one consumed a response with
`web.results` present holding at least the requested number of items.
The calendar and YouTube loops keep fetching after a short page whenever a
continuation token is present. -/
theorem c3_amended (α β : Type) (src : Nat → Brave.BravePage α) (mapper : α → β)
    (count offset tot : Int) (fuel : Nat)
    (out : Brave.BraveOutcome β) (comb : Option (Brave.BravePage α))
    (reqs : List (Int × Int))
    (h : Brave.web_search src mapper count offset tot fuel = some (out, comb, reqs))
    (j : Nat) (hj : j + 1 < reqs.length) :
    (src j).full = true
    ∧ (reqs.getD j (0, 0)).1 ≤ (((src j).itemsD.length : Nat) : Int) := by
  obtain ⟨all, offOut, combOut, hgo⟩ :=
    web_search_run src mapper count offset tot fuel out comb reqs h
  obtain ⟨-, -, h3⟩ := braveGo_spec src (min count 20) offset fuel [] offset tot
    none 0 all offOut combOut reqs hgo
  simpa using h3 j hj

/-- C3 (witness): `c3_amended` on a two-fetch Brave run (`count = 2`,
`total_results = 4`, two-result pages) at the first fetch. -/
theorem c3_witness :
    (braveSrcPages 0).full = true
    ∧ (([((2:Int), (0:Int)), (2, 2)].getD 0 (0, 0)).1
        ≤ (((braveSrcPages 0).itemsD.length : Nat) : Int)) :=
  c3_amended Nat Nat braveSrcPages (fun a => a) 2 0 4 3
    (Brave.BraveOutcome.ok [1, 2, 1, 2]) (some ⟨some ⟨some [1, 2]⟩⟩)
    [(2, 0), (2, 2)] (by decide) 0 (by decide)

/-! ## C5 — requested page size on every iteration -/

/-- C5 (confirmed): on every loop iteration the page size requested from
the source is exactly `min(page_size_cap, target_count - accumulated)`:
`min(250, limit - results_count)` for both calendar tools,
`min(50, max_results - len(lst))` for the YouTube loop, and
`min(min(count, 20), remaining_results)` for Brave, where the accumulated
count before fetch `j` is the number of items served by pages `0..j-1`. -/
theorem c5_confirmed (α β : Type)
    (srcC : Nat → Calendar.CalPage α) (mC : α → β) (limitC : Int) (fuelC : Nat)
    (resC : List β) (reqsC : List Int)
    (hC : Calendar.list_calendars srcC mC limitC fuelC = some (resC, reqsC))
    (jC : Nat) (hjC : jC < reqsC.length)
    (srcE : Nat → Calendar.CalPage α) (limitE : Int) (fuelE : Nat)
    (resE : List α) (reqsE : List Int)
    (hE : Calendar.list_calendar_events srcE limitE fuelE = some (resE, reqsE))
    (jE : Nat) (hjE : jE < reqsE.length)
    (srcY : Nat → YouTube.YtPage α) (mY : α → β) (maxR : Int) (fuelY : Nat)
    (resY : List β) (totY : Int) (reqsY : List Int)
    (hY : YouTube.search_channel srcY mY maxR fuelY = some (resY, totY, reqsY))
    (jY : Nat) (hjY : jY < reqsY.length)
    (srcB : Nat → Brave.BravePage α) (mB : α → β) (count offset tot : Int)
    (fuelB : Nat) (outB : Brave.BraveOutcome β)
    (combB : Option (Brave.BravePage α)) (reqsB : List (Int × Int))
    (hB : Brave.web_search srcB mB count offset tot fuelB
        = some (outB, combB, reqsB))
    (jB : Nat) (hjB : jB < reqsB.length) :
    reqsC.getD jC 0 = min 250 (limitC - (Calendar.servedFrom srcC 0 jC : Int))
    ∧ reqsE.getD jE 0 = min 250 (limitE - (Calendar.servedFrom srcE 0 jE : Int))
    ∧ reqsY.getD jY 0 = min 50 (maxR - (YouTube.servedFrom srcY 0 jY : Int))
    ∧ (reqsB.getD jB (0, 0)).1
        = min (min count 20) (tot - (Brave.servedFrom srcB 0 jB : Int)) := by
  refine ⟨?_, ?_, ?_, ?_⟩
  · unfold Calendar.list_calendars at hC
    split at hC
    · cases hC
    next res0 reqs0 hgo =>
      simp only [Option.some.injEq, Prod.mk.injEq] at hC
      obtain ⟨rfl, rfl⟩ := hC
      obtain ⟨-, h2⟩ := listCalendarsGo_spec srcC limitC fuelC [] 0 res0 reqs0 hgo
      simpa using h2 jC hjC
  · obtain ⟨-, h2⟩ := listEventsGo_spec srcE limitE fuelE [] 0 resE reqsE hE
    simpa using h2 jE hjE
  · unfold YouTube.search_channel at hY
    obtain ⟨-, h2, -⟩ := searchChannelGo_spec srcY mY maxR fuelY [] 0 0
      resY totY reqsY hY
    simpa using h2 jY hjY
  · obtain ⟨all, offOut, combOut, hgo⟩ :=
      web_search_run srcB mB count offset tot fuelB outB combB reqsB hB
    obtain ⟨-, h2, -⟩ := braveGo_spec srcB (min count 20) offset fuelB [] offset
      tot none 0 all offOut combOut reqsB hgo
    simpa using h2 jB hjB

/-- C5 (witness): `c5_confirmed` on concrete runs — a two-fetch
`list_calendars` run at its second request, one-fetch events and YouTube
runs, and a two-fetch Brave run at its second request. -/
theorem c5_witness :
    ([(10:Int), 7].getD 1 0 = min 250 (10 - (Calendar.servedFrom calSrcShort 0 1 : Int)))
    ∧ ([(1:Int)].getD 0 0 = min 250 (1 - (Calendar.servedFrom calSrcEmpty 0 0 : Int)))
    ∧ ([(1:Int)].getD 0 0 = min 50 (1 - (YouTube.servedFrom ytSrcEmpty 0 0 : Int)))
    ∧ (([((2:Int), (0:Int)), (2, 2)].getD 1 (0, 0)).1
        = min (min 2 20) (4 - (Brave.servedFrom braveSrcPages 0 1 : Int))) :=
  c5_confirmed Nat Nat calSrcShort (fun a => a) 10 2 [1, 2, 3, 4] [10, 7]
    (by decide) 1 (by decide)
    calSrcEmpty 1 1 [] [1] (by decide) 0 (by decide)
    ytSrcEmpty (fun a => a) 1 1 [] 0 [1] (by decide) 0 (by decide)
    braveSrcPages (fun a => a) 2 0 4 3 (Brave.BraveOutcome.ok [1, 2, 1, 2])
    (some ⟨some ⟨some [1, 2]⟩⟩) [(2, 0), (2, 2)] (by decide) 1 (by decide)

/-! ## C6 — order preservation and prefix property -/

/-- C6 (confirmed): every aggregation's output preserves the source order:
the returned record sequence is a prefix of the concatenation of the
mapped pages (page order, then in-page order; mapping applied item-wise,
the identity passthrough for calendar events). -/
theorem c6_confirmed (α β : Type)
    (srcC : Nat → Calendar.CalPage α) (mC : α → β) (limitC : Int) (fuelC : Nat)
    (resC : List β) (reqsC : List Int)
    (hC : Calendar.list_calendars srcC mC limitC fuelC = some (resC, reqsC))
    (srcE : Nat → Calendar.CalPage α) (limitE : Int) (fuelE : Nat)
    (resE : List α) (reqsE : List Int)
    (hE : Calendar.list_calendar_events srcE limitE fuelE = some (resE, reqsE))
    (srcY : Nat → YouTube.YtPage α) (mY : α → β) (maxR : Int) (fuelY : Nat)
    (resY : List β) (totY : Int) (reqsY : List Int)
    (hY : YouTube.search_channel srcY mY maxR fuelY = some (resY, totY, reqsY))
    (srcB : Nat → Brave.BravePage α) (mB : α → β) (count offset tot : Int)
    (fuelB : Nat) (resB : List β) (combB : Option (Brave.BravePage α))
    (reqsB : List (Int × Int))
    (hB : Brave.web_search srcB mB count offset tot fuelB
        = some (Brave.BraveOutcome.ok resB, combB, reqsB)) :
    List.IsPrefix resC ((Calendar.concatFrom srcC 0 reqsC.length).map mC)
    ∧ List.IsPrefix resE (Calendar.concatFrom srcE 0 reqsE.length)
    ∧ List.IsPrefix resY ((YouTube.concatFrom srcY 0 reqsY.length).map mY)
    ∧ List.IsPrefix resB ((Brave.concatFrom srcB 0 reqsB.length).map mB) := by
  refine ⟨?_, ?_, ?_, ?_⟩
  · unfold Calendar.list_calendars at hC
    split at hC
    · cases hC
    next res0 reqs0 hgo =>
      simp only [Option.some.injEq, Prod.mk.injEq] at hC
      obtain ⟨rfl, rfl⟩ := hC
      obtain ⟨h1, -⟩ := listCalendarsGo_spec srcC limitC fuelC [] 0 res0 reqs0 hgo
      rw [h1]
      simp
  · obtain ⟨h1, -⟩ := listEventsGo_spec srcE limitE fuelE [] 0 resE reqsE hE
    simpa using h1
  · unfold YouTube.search_channel at hY
    obtain ⟨h1, -, -⟩ := searchChannelGo_spec srcY mY maxR fuelY [] 0 0
      resY totY reqsY hY
    rw [h1]
    simp
  · obtain ⟨all, offOut, c, hgo, hcomb, hres⟩ :=
      web_search_ok srcB mB count offset tot fuelB resB combB reqsB hB
    obtain ⟨h1, -, -⟩ := braveGo_spec srcB (min count 20) offset fuelB [] offset
      tot none 0 all offOut (some c) reqsB hgo
    rw [hres, h1]
    simp only [List.nil_append]
    exact (pyTake_prefixed tot (Brave.concatFrom srcB 0 reqsB.length)).map mB

/-- C6 (witness): `c6_confirmed` on concrete runs of all four loops. -/
theorem c6_witness :
    List.IsPrefix [1, 2, 3, 4] ((Calendar.concatFrom calSrcShort 0 2).map (fun a => a))
    ∧ List.IsPrefix ([] : List Nat) (Calendar.concatFrom calSrcEmpty 0 1)
    ∧ List.IsPrefix ([] : List Nat) ((YouTube.concatFrom ytSrcEmpty 0 1).map (fun a => a))
    ∧ List.IsPrefix [1, 2, 1, 2] ((Brave.concatFrom braveSrcPages 0 2).map (fun a => a)) :=
  c6_confirmed Nat Nat calSrcShort (fun a => a) 10 2 [1, 2, 3, 4] [10, 7] (by decide)
    calSrcEmpty 1 1 [] [1] (by decide)
    ytSrcEmpty (fun a => a) 1 1 [] 0 [1] (by decide)
    braveSrcPages (fun a => a) 2 0 4 3 [1, 2, 1, 2]
    (some ⟨some ⟨some [1, 2]⟩⟩) [(2, 0), (2, 2)] (by decide)

/-! ## C8 — aggregate metadata and the first page -/

/-- C8 (counterexample): the claim says the YouTube tools' `total_results`
is taken from the first page only.  But the loop overwrites it on every
iteration: on a two-page run whose pages report totals 100 and 200, the
returned value is 200 — the last page's, not the first page's 100. -/
theorem c8_counterexample :
    YouTube.search_channel ytSrcTotals (fun a => a) 5 3
      = some ([1, 2], 200, [5, 4]) := by
  decide

/-- C8 (amended): Brave's combined envelope is captured from the first
page (for `count ≥ 1` and at least one fetch, the capture condition
`current_offset == offset` holds only on the first iteration), and Exa's
`cost_dollars` comes from its single API response; but the YouTube tools'
`total_results` is overwritten on every page and comes from the **last**
fetched page (the initial 0 when no fetch happened). -/
theorem c8_amended (α β γ : Type)
    (srcY : Nat → YouTube.YtPage α) (mY : α → β) (maxR : Int) (fuelY : Nat)
    (resY : List β) (totY : Int) (reqsY : List Int)
    (hY : YouTube.search_channel srcY mY maxR fuelY = some (resY, totY, reqsY))
    (srcB : Nat → Brave.BravePage α) (mB : α → β) (count offset tot : Int)
    (hcount : 1 ≤ count) (fuelB : Nat)
    (outB : Brave.BraveOutcome β) (combB : Option (Brave.BravePage α))
    (reqsB : List (Int × Int))
    (hB : Brave.web_search srcB mB count offset tot fuelB
        = some (outB, combB, reqsB))
    (hBne : reqsB ≠ [])
    (r : Exa.SearchResponse α γ) (mE : α → β) :
    totY = (if reqsY.length = 0 then 0
      else (srcY (reqsY.length - 1)).totalResults)
    ∧ combB = some (srcB 0)
    ∧ Exa.search (.ok r) mE = .ok (r.costDollarsTotal, r.results.map mE) := by
  refine ⟨?_, ?_, rfl⟩
  · unfold YouTube.search_channel at hY
    obtain ⟨-, -, h3⟩ := searchChannelGo_spec srcY mY maxR fuelY [] 0 0
      resY totY reqsY hY
    simpa using h3
  · unfold Brave.web_search at hB
    split at hB
    · cases hB
    next all offOut combOut reqsOut hgo =>
      have hapi : (1:Int) ≤ min count 20 := by omega
      split at hB
      · simp only [Option.some.injEq, Prod.mk.injEq] at hB
        obtain ⟨rfl, rfl, rfl⟩ := hB
        exact absurd (braveGo_comb_first srcB (min count 20) hapi offset fuelB
          [] tot none 0 all offOut none reqsOut hgo hBne) (by simp)
      next c =>
        have hfirst := braveGo_comb_first srcB (min count 20) hapi offset fuelB
          [] tot none 0 all offOut (some c) reqsOut hgo
        split at hB
        · simp only [Option.some.injEq, Prod.mk.injEq] at hB
          obtain ⟨rfl, rfl, rfl⟩ := hB
          exact hfirst hBne
        · simp only [Option.some.injEq, Prod.mk.injEq] at hB
          obtain ⟨rfl, rfl, rfl⟩ := hB
          exact hfirst hBne

/-- C8 (witness): `c8_amended` on the two-page YouTube run with provider
totals 100 then 200, a two-fetch Brave run, and a concrete Exa response
with cost 3. -/
theorem c8_witness :
    (200 : Int) = (if ([(5:Int), 4].length) = 0 then 0
      else (ytSrcTotals (([(5:Int), 4].length) - 1)).totalResults)
    ∧ (some ⟨some ⟨some [1, 2]⟩⟩ : Option (Brave.BravePage Nat))
        = some (braveSrcPages 0)
    ∧ Exa.search (.ok (⟨3, [10]⟩ : Exa.SearchResponse Nat Int)) (fun a => a)
        = .ok ((⟨3, [10]⟩ : Exa.SearchResponse Nat Int).costDollarsTotal,
            (⟨3, [10]⟩ : Exa.SearchResponse Nat Int).results.map (fun a => a)) :=
  c8_amended Nat Nat Int ytSrcTotals (fun a => a) 5 3 [1, 2] 200 [5, 4]
    (by decide)
    braveSrcPages (fun a => a) 2 0 4 (by decide) 3
    (Brave.BraveOutcome.ok [1, 2, 1, 2]) (some ⟨some ⟨some [1, 2]⟩⟩)
    [(2, 0), (2, 2)] (by decide) (by decide)
    ⟨3, [10]⟩ (fun a => a)
